import Mathlib

/-!
Shallow embedding of the translation core of the `ar-terraform-registry`
repository (package `store`, file `pkg/store/artifactregistry.go`, and the
`Downloader` in the same package).

Go strings are modelled as `List Char` (`Str`); `fmt.Sprintf` chains become
list appends, `strings.Split` on a one-character separator becomes
`List.splitOn`, `strings.Fields` becomes a whitespace split that drops empty
fields, and `bufio.Scanner` line scanning becomes `scanLines`.  Fallible Go
functions return `Except`; a Go `panic` (e.g. an out-of-range slice index) is
the distinguished `Failure.panicked` constructor, so that crashing executions
are visibly different from ordinary error returns.  The Artifact Registry
client, the authenticated HTTP transport and the openpgp library are external
collaborators: they enter the model as an explicit environment of oracle
functions (`Env`), and every store operation is a pure function of that
environment and its arguments.
-/

deriving instance DecidableEq for Except

/-- Go strings, modelled as their character sequences. -/
abbrev Str := List Char

/-- Embed a Lean string literal into the `Str` model. -/
def str (s : String) : Str := s.toList

/-- Decimal rendering of a natural number, as used by `fmt.Sprintf` `%d`. -/
def natToStr (n : Nat) : Str := (toString n).toList

/-- Go `strings.HasSuffix`. -/
def hasSuffix (s pat : Str) : Bool := pat.isSuffixOf s

/-- Go `path.Base`: strip trailing slashes, then keep everything after the
last slash; empty input gives `"."`, an all-slash input gives `"/"`. -/
def pathBase (s : Str) : Str :=
  if s = [] then ['.']
  else
    let t := (s.reverse.dropWhile (· = '/')).reverse
    if t = [] then ['/']
    else (t.splitOn '/').getLastD []

/-- Go `strings.Fields`: split on whitespace runs, dropping empty fields. -/
def fields (s : Str) : List Str :=
  (s.splitOnP (·.isWhitespace)).filter (· ≠ [])

/-- One text line of `bufio.Scanner`'s `ScanLines`: a trailing carriage
return is removed. -/
def dropCR (l : Str) : Str :=
  if hasSuffix l ['\r'] then l.dropLast else l

/-- Go `bufio.Scanner` with `ScanLines`: split on newlines; the final line
needs no terminator, and a trailing newline does not create an empty line. -/
def scanLines (s : Str) : List Str :=
  let r := s.splitOn '\n'
  (if r.getLastD [] = [] then r.dropLast else r).map dropCR

/-- `model.Platform`. -/
structure Platform where
  os : Str
  arch : Str
deriving DecidableEq, Repr

/-- `model.ProviderVersion`. -/
structure ProviderVersion where
  version : Str
  protocols : List Str
  platforms : List Platform
deriving DecidableEq, Repr

/-- `model.ProviderVersions`. -/
structure ProviderVersions where
  versions : List ProviderVersion
deriving DecidableEq, Repr

/-- `model.GpgPublicKeys`. -/
structure GpgPublicKeys where
  keyID : Str
  asciiArmor : Str
  trustSignature : Str
  source : Str
  sourceURL : Str
deriving DecidableEq, Repr

/-- `model.SigningKeys`. -/
structure SigningKeys where
  gpgPublicKeys : List GpgPublicKeys
deriving DecidableEq, Repr

/-- `model.Provider`. -/
structure Provider where
  protocols : List Str
  os : Str
  arch : Str
  filename : Str
  downloadURL : Str
  shaSumsURL : Str
  shaSumsSignatureURL : Str
  shaSum : Str
  signingKeys : SigningKeys
deriving DecidableEq, Repr

/-- `model.ModuleVersion`. -/
structure ModuleVersion where
  version : Str
  sourceURL : Str
deriving DecidableEq, Repr

/-- How a store operation can fail to return normally: `goError` is an
ordinary Go `error` return (carrying the formatted message), `panicked` is a
runtime panic such as an out-of-range slice index. -/
inductive Failure where
  | goError (msg : Str)
  | panicked (msg : Str)
deriving DecidableEq, Repr

/-- `fullVersion(version, os, arch)`: join the triple with dashes
(`fmt.Sprintf("%s-%s-%s", ...)`). -/
def fullVersion (version os arch : Str) : Str :=
  version ++ ['-'] ++ os ++ ['-'] ++ arch

/-- `modulePkg(name, system)`: `fmt.Sprintf("terraform-%s-%s", system, name)`. -/
def modulePkg (name system : Str) : Str :=
  str "terraform-" ++ system ++ ['-'] ++ name

/-- `parseFullVersion(version)`: split on `"-"`; error unless exactly 3
fields result. -/
def parseFullVersion (version : Str) : Except Str (Str × Str × Str) :=
  match version.splitOn '-' with
  | [a, b, c] => Except.ok (a, b, c)
  | _ => Except.error (str "invalid version format: " ++ version)

/-- `providerFileNamePrefix(pkg, fullVer, version)`:
`fmt.Sprintf("%s:%s:terraform-provider-%s_%s", pkg, fullVer, pkg, version)`. -/
def providerFileNamePfx (pkg fullVer version : Str) : Str :=
  pkg ++ [':'] ++ fullVer ++ str ":terraform-provider-" ++ pkg ++ ['_'] ++ version

/-- `moduleFileName(pkg, version)`:
`fmt.Sprintf("%s:%s:module-archive.tar.gz", pkg, version)`. -/
def moduleFileName (pkg version : Str) : Str :=
  pkg ++ [':'] ++ version ++ str ":module-archive.tar.gz"

/-- One step of the Go map update `m[version] = append(m[version], p)`,
with the map realised as an insertion-ordered association list. -/
def groupAdd (m : List (Str × List Platform)) (version : Str) (p : Platform) :
    List (Str × List Platform) :=
  if m.any (fun q => q.1 = version) then
    m.map (fun q => if q.1 = version then (q.1, q.2 ++ [p]) else q)
  else m ++ [(version, [p])]

/-- The loop of `mapVersions`: decode every raw version, joining decode
errors into the accumulator (`errors.Join` modelled as a message list) and
grouping successes by semantic version. -/
def mapVersionsGo : List Str → List (Str × List Platform) → List Str →
    List (Str × List Platform) × List Str
  | [], m, merr => (m, merr)
  | v :: rest, m, merr =>
    match parseFullVersion v with
    | Except.error e => mapVersionsGo rest m (merr ++ [e])
    | Except.ok (version, os, arch) =>
        mapVersionsGo rest (groupAdd m version ⟨os, arch⟩) merr

/-- `mapVersions(fullVersions)`: the grouped version set together with the
joined decode errors (`nil` error iff the list is empty). -/
def mapVersions (fullVersions : List Str) : ProviderVersions × List Str :=
  let r := mapVersionsGo fullVersions [] []
  (⟨r.1.map (fun p => ⟨p.1, [str "5.0"], p.2⟩)⟩, r.2)

/-- A raw version decodes iff `parseFullVersion` succeeds on it. -/
def decodable (v : Str) : Bool :=
  match parseFullVersion v with
  | Except.ok _ => true
  | Except.error _ => false

/-- An HTTP response as seen by `Downloader.Download`: a status code and the
response body (the byte stream, modelled as its contents). -/
structure HttpResponse where
  statusCode : Nat
  body : Str
deriving DecidableEq, Repr

/-- `Downloader.Download(ctx, fullFileName)`: build the Artifact Registry
download URL, execute the request through the authenticated client (the
`doRequest` oracle), fail on a request error or on any non-200 status
(returning no body), and otherwise hand the caller the live response body. -/
def downloaderDownload (doRequest : Str → Except Str HttpResponse)
    (fullFileName : Str) : Except Str Str :=
  let url := str "https://artifactregistry.googleapis.com/download/v1/" ++ fullFileName
  match doRequest url with
  | Except.error e => Except.error (str "failed to execute download request: " ++ e)
  | Except.ok resp =>
    if resp.statusCode ≠ 200 then
      Except.error (str "unexpected download status code: " ++ natToStr resp.statusCode)
    else Except.ok resp.body

/-- An openpgp key entity, abstracted to what the store reads from it:
`PrimaryKey.KeyIdString()`. -/
structure Entity where
  keyIdString : Str
deriving DecidableEq, Repr

/-- The store's external collaborators: the Artifact Registry listing client
(version and file iterators, already flattened across pages), the
authenticated downloader, and the openpgp armored-key-ring reader. -/
structure Env where
  listVersions : Str → Except Str (List Str)
  listFiles : Str → Str → Except Str (List Str)
  download : Str → Except Str Str
  readArmoredKeyRing : Str → Except Str (List Entity)

/-- `ArtifactRegistryGeneric`: the collaborators plus the scope string
`projects/P/locations/L` computed once at construction. -/
structure ArtifactRegistryGeneric where
  env : Env
  scope : Str

/-- `ListProviderVersions(ctx, namespace, name)`: collect the base names of
every listed version, group them through `mapVersions`, log (but do not
return) the joined decode errors, and return the version set with a nil
error. -/
def listProviderVersions (a : ArtifactRegistryGeneric) (ns name : Str) :
    Except Failure ProviderVersions :=
  match a.env.listVersions
      (a.scope ++ str "/repositories/" ++ ns ++ str "/packages/" ++ name) with
  | Except.error e => Except.error (.goError (str "failed to iterate over versions: " ++ e))
  | Except.ok versionNames =>
    let r := mapVersions (versionNames.map pathBase)
    -- r.2 is logged via logger.ErrorContext; the Go function returns (vs, nil)
    Except.ok r.1

/-- The Go map update `sums[fn] = hash`, with the map realised as an
insertion-ordered association list. -/
def mapInsert (m : List (Str × Str)) (k v : Str) : List (Str × Str) :=
  if m.any (fun q => q.1 = k) then
    m.map (fun q => if q.1 = k then (q.1, v) else q)
  else m ++ [(k, v)]

/-- The scanner loop of `parseSHASumFile`: for each line take
`parts := strings.Fields(line)` and read `parts[0]` and `parts[1]` without a
length check — a line with fewer than two fields is an out-of-range panic. -/
def parseSHASumLines : List Str → List (Str × Str) → Except Failure (List (Str × Str))
  | [], sums => Except.ok sums
  | line :: rest, sums =>
    match fields line with
    | hash :: fn :: _ => parseSHASumLines rest (mapInsert sums fn hash)
    | _ => Except.error (.panicked (str "runtime error: index out of range"))

/-- `parseSHASumFile(ctx, repo, fileName)`: download the manifest and scan it
line by line into the file-name-to-digest map. -/
def parseSHASumFile (a : ArtifactRegistryGeneric) (repo fileName : Str) :
    Except Failure (List (Str × Str)) :=
  match a.env.download
      (a.scope ++ str "/repositories/" ++ repo ++ str "/files/" ++ fileName ++ str ":download") with
  | Except.error e => Except.error (.goError (str "failed to download " ++ fileName ++ str ": " ++ e))
  | Except.ok content => parseSHASumLines (scanLines content) []

/-- `parseGPGKeys(ctx, namespace, fileName)`: download the armored key file,
read it as a key ring, demand exactly one entity, and return one
`GpgPublicKeys` carrying the entity's primary key id and the downloaded
bytes verbatim. -/
def parseGPGKeys (a : ArtifactRegistryGeneric) (ns fileName : Str) :
    Except Failure (List GpgPublicKeys) :=
  match a.env.download
      (a.scope ++ str "/repositories/" ++ ns ++ str "/files/" ++ fileName ++ str ":download") with
  | Except.error e => Except.error (.goError (str "failed to download " ++ fileName ++ str ": " ++ e))
  | Except.ok all =>
    match a.env.readArmoredKeyRing all with
    | Except.error e => Except.error (.goError e)
    | Except.ok els =>
      match els with
      | [key] => Except.ok [⟨key.keyIdString, all, [], [], []⟩]
      | _ => Except.error (.goError
          (str "GPG Key contains " ++ natToStr els.length ++ str " entities, wanted 1"))

/-- `findSHA(shaSums, fileName)`: first map entry whose key is a suffix of
the queried file name wins; no match is the digest-not-found error. -/
def findSHA (shaSums : List (Str × Str)) (fileName : Str) : Except Failure (Str × Str) :=
  match shaSums.find? (fun q => hasSuffix fileName q.1) with
  | some q => Except.ok (q.2, q.1)
  | none => Except.error (.goError (str "failed to find SHA for \"" ++ fileName ++ str "\""))

/-- The four role variables of `GetProviderVersion`'s classification loop
(Go zero value: all empty). -/
structure FileRoles where
  providerBinName : Str
  shaSumName : Str
  shaSumSigName : Str
  gpgKeyName : Str
deriving DecidableEq, Repr

/-- The binary-archive asset name `namePrefix + "_{os}_{arch}.zip"`. -/
def zipAssetName (namePfx os arch : Str) : Str :=
  namePfx ++ ['_'] ++ os ++ ['_'] ++ arch ++ str ".zip"

/-- The checksum-manifest asset name `namePrefix + "_SHA256SUMS"`. -/
def shaSumsAssetName (namePfx : Str) : Str := namePfx ++ str "_SHA256SUMS"

/-- The checksum-signature asset name `namePrefix + "_SHA256SUMS.sig"`. -/
def shaSumsSigAssetName (namePfx : Str) : Str := namePfx ++ str "_SHA256SUMS.sig"

/-- The public-key asset name `namePrefix + "_gpg-public-key.pem"`. -/
def gpgKeyAssetName (namePfx : Str) : Str := namePfx ++ str "_gpg-public-key.pem"

/-- One iteration of the classification loop in `GetProviderVersion`: the
`switch` on `fn := path.Base(f.Name)` against the four canonical asset
names. -/
def classifyStep (namePfx os arch : Str) (st : FileRoles) (f : Str) : FileRoles :=
  let fn := pathBase f
  if fn = zipAssetName namePfx os arch then { st with providerBinName := fn }
  else if fn = shaSumsAssetName namePfx then { st with shaSumName := fn }
  else if fn = shaSumsSigAssetName namePfx then { st with shaSumSigName := fn }
  else if fn = gpgKeyAssetName namePfx then { st with gpgKeyName := fn }
  else st

/-- The classification loop of `GetProviderVersion` over the listed files. -/
def classifyFiles (namePfx os arch : Str) : List Str → FileRoles → FileRoles
  | [], st => st
  | f :: rest, st => classifyFiles namePfx os arch rest (classifyStep namePfx os arch st f)

/-- `GetProviderVersion(ctx, namespace, name, version, os, arch)`: list the
package's files, classify them into the four roles, fail if binary, checksum
manifest or signature is missing, parse the manifest and the key file
(`parseGPGKeys` is called unconditionally, with an empty file name when no
key file matched), and assemble the provider descriptor. -/
def getProviderVersion (a : ArtifactRegistryGeneric) (ns name version os arch : Str) :
    Except Failure Provider :=
  let repo := ns
  let pkg := name
  let fullVer := fullVersion version os arch
  match a.env.listFiles (a.scope ++ str "/repositories/" ++ repo)
      (str "owner=\"" ++ a.scope ++ str "/repositories/" ++ repo ++
        str "/packages/" ++ pkg ++ str "\"") with
  | Except.error e => Except.error (.goError (str "failed to iterate over files: " ++ e))
  | Except.ok files =>
    let namePfx := providerFileNamePfx pkg fullVer version
    let roles := classifyFiles namePfx os arch files ⟨[], [], [], []⟩
    if roles.providerBinName = [] then
      Except.error (.goError (str "provider binary not found for \"" ++ fullVer ++ str "\""))
    else if roles.shaSumName = [] then
      Except.error (.goError (str "SHA256SUMS not found for \"" ++ fullVer ++ str "\""))
    else if roles.shaSumSigName = [] then
      Except.error (.goError (str "SHA256SUMS.sig not found for \"" ++ fullVer ++ str "\""))
    else
      match parseSHASumFile a repo roles.shaSumName with
      | Except.error (.goError e) =>
          Except.error (.goError (str "failed to parse SHA256SUMS: " ++ e))
      | Except.error f => Except.error f
      | Except.ok shaSums =>
        match parseGPGKeys a repo roles.gpgKeyName with
        | Except.error (.goError e) =>
            Except.error (.goError (str "failed to parse GPG keys: " ++ e))
        | Except.error f => Except.error f
        | Except.ok keys =>
          match findSHA shaSums roles.providerBinName with
          | Except.error f => Except.error f
          | Except.ok sk =>
            Except.ok
              { protocols := [str "5.0"], os := os, arch := arch,
                filename := sk.2,
                downloadURL := str "/download/provider/" ++ repo ++ str "/asset/" ++
                  roles.providerBinName,
                shaSumsURL := str "/download/provider/" ++ repo ++ str "/asset/" ++
                  roles.shaSumName,
                shaSumsSignatureURL := str "/download/provider/" ++ repo ++
                  str "/asset/" ++ roles.shaSumSigName,
                shaSum := sk.1, signingKeys := ⟨keys⟩ }

/-- `GetModuleVersion(ctx, namespace, name, system, version)`: a pure
computation assembling the deterministic source-download path; the listing
client and downloader of `a` are never consulted. -/
def getModuleVersion (a : ArtifactRegistryGeneric) (ns name system version : Str) :
    ModuleVersion :=
  let repo := ns
  let pkg := modulePkg name system
  { version := version,
    sourceURL := str "/download/module/" ++ repo ++ str "/asset/" ++ moduleFileName pkg version }

/-- The decode errors that `mapVersions` joins, in encounter order. -/
def decodeErrs (l : List Str) : List Str :=
  l.filterMap (fun v =>
    match parseFullVersion v with
    | Except.error e => some e
    | Except.ok _ => none)

/-- An environment whose oracles all fail; fixtures below override the
collaborators a scenario needs. -/
def emptyEnv : Env where
  listVersions := fun _ => Except.error []
  listFiles := fun _ _ => Except.error []
  download := fun _ => Except.error []
  readArmoredKeyRing := fun _ => Except.error []

/-- Fixture: a backing store listing the two decodable raw versions and one
undecodable raw version of the spec's `ListVersions` example. -/
def c1Store : ArtifactRegistryGeneric where
  env := { emptyEnv with
    listVersions := fun _ =>
      Except.ok [str "1.0.0-linux-amd64", str "1.0.0-darwin-arm64", str "bad"] }
  scope := str "projects/p/locations/l"

/-- Fixture: a package whose file listing has the binary archive, the
checksum manifest and the checksum signature but no public-key file; the
downloader serves the manifest and answers any other path — including the
empty-named key-file path `.../files/:download` — with a failed download. -/
def c2Store : ArtifactRegistryGeneric where
  env := { emptyEnv with
    listFiles := fun _ _ => Except.ok
      [str "foo:1.0.0-linux-amd64:terraform-provider-foo_1.0.0_linux_amd64.zip",
       str "foo:1.0.0-linux-amd64:terraform-provider-foo_1.0.0_SHA256SUMS",
       str "foo:1.0.0-linux-amd64:terraform-provider-foo_1.0.0_SHA256SUMS.sig"],
    download := fun u =>
      if u = str "S/repositories/ns/files/foo:1.0.0-linux-amd64:terraform-provider-foo_1.0.0_SHA256SUMS:download" then
        Except.ok (str "deadbeef  terraform-provider-foo_1.0.0_linux_amd64.zip\n")
      else Except.error (str "unexpected download status code: 404") }
  scope := str "S"

/-- Fixture: like `c2Store` but with the checksum manifest absent from the
listing (binary and signature still present). -/
def c5Store : ArtifactRegistryGeneric where
  env := { emptyEnv with
    listFiles := fun _ _ => Except.ok
      [str "foo:1.0.0-linux-amd64:terraform-provider-foo_1.0.0_linux_amd64.zip",
       str "foo:1.0.0-linux-amd64:terraform-provider-foo_1.0.0_SHA256SUMS.sig"] }
  scope := str "S"

/-- Fixture: a downloader and key-ring reader serving armored files that
parse to one, two and zero key entities respectively. -/
def c6Store : ArtifactRegistryGeneric where
  env := { emptyEnv with
    download := fun u =>
      if u = str "S/repositories/ns/files/one.pem:download" then Except.ok (str "ONEKEY")
      else if u = str "S/repositories/ns/files/two.pem:download" then Except.ok (str "TWOKEYS")
      else Except.ok (str "ZEROKEYS"),
    readArmoredKeyRing := fun c =>
      if c = str "ONEKEY" then Except.ok [⟨str "ABCDEF0123456789"⟩]
      else if c = str "TWOKEYS" then Except.ok [⟨str "AAAA"⟩, ⟨str "BBBB"⟩]
      else Except.ok [] }
  scope := str "S"

/-- Fixture: an HTTP client answering one object path with a 404 response
and every other path with a 200 response. -/
def c8Client : Str → Except Str HttpResponse := fun u =>
  if u = str "https://artifactregistry.googleapis.com/download/v1/obj.zip" then
    Except.ok ⟨404, str "not found"⟩
  else Except.ok ⟨200, str "zip bytes"⟩

/-- C3: for every valid triple (version, os, arch) — valid meaning no field
contains the delimiter `-` — decoding the delimiter-joined encoding returns
exactly the original triple. -/
theorem parseFullVersion_fullVersion_roundtrip (version os arch : Str)
    (hv : '-' ∉ version) (ho : '-' ∉ os) (ha : '-' ∉ arch) :
    parseFullVersion (fullVersion version os arch) = Except.ok (version, os, arch) := by
  have h2 : fullVersion version os arch = ['-'].intercalate [version, os, arch] := by
    simp [fullVersion, List.intercalate, List.intersperse]
  have hsplit : (fullVersion version os arch).splitOn '-' = [version, os, arch] := by
    rw [h2, List.splitOn_intercalate]
    · intro l hl
      simp only [List.mem_cons, List.not_mem_nil, or_false] at hl
      rcases hl with rfl | rfl | rfl <;> assumption
    · simp
  simp [parseFullVersion, hsplit]

/-- Witness for C3 at the triple (1.0.0, linux, amd64). -/
theorem parseFullVersion_fullVersion_roundtrip_witness :
    parseFullVersion (fullVersion (str "1.0.0") (str "linux") (str "amd64")) =
      Except.ok (str "1.0.0", str "linux", str "amd64") :=
  parseFullVersion_fullVersion_roundtrip (str "1.0.0") (str "linux") (str "amd64")
    (by decide) (by decide) (by decide)

/-- C4: decoding a raw version string fails (with the invalid-format error)
exactly when splitting on the delimiter does not yield three fields; in
particular both "1.0.0" and "1-0-0-extra" fail. -/
theorem parseFullVersion_error_iff_not_three_fields :
    (∀ v : Str,
      parseFullVersion v = Except.error (str "invalid version format: " ++ v) ↔
        (v.splitOn '-').length ≠ 3) ∧
    parseFullVersion (str "1.0.0") =
      Except.error (str "invalid version format: " ++ str "1.0.0") ∧
    parseFullVersion (str "1-0-0-extra") =
      Except.error (str "invalid version format: " ++ str "1-0-0-extra") := by
  refine ⟨fun v => ?_, by decide, by decide⟩
  unfold parseFullVersion
  rcases h : v.splitOn '-' with _ | ⟨a, _ | ⟨b, _ | ⟨c, _ | d⟩⟩⟩ <;> simp

/-- C9: Module Store GetVersion is a pure computation: it never consults the
store's collaborators (the result is the same for any two store values), and
it always returns the ModuleVersion whose source-download path is derived
deterministically from the terraform-system-name package key. -/
theorem getModuleVersion_pure_deterministic
    (a b : ArtifactRegistryGeneric) (ns name system version : Str) :
    getModuleVersion a ns name system version = getModuleVersion b ns name system version ∧
    getModuleVersion a ns name system version =
      ⟨version,
        str "/download/module/" ++ ns ++ str "/asset/" ++
          (str "terraform-" ++ system ++ ['-'] ++ name) ++ [':'] ++ version ++
          str ":module-archive.tar.gz"⟩ := by
  constructor
  · rfl
  · simp [getModuleVersion, modulePkg, moduleFileName]

/-- C8: the asset fetch treats any non-200 upstream response as a failed
download whose error carries the status code (and yields no byte stream),
and returns the live response body on a 200 response. -/
theorem downloaderDownload_status_contract
    (doRequest : Str → Except Str HttpResponse) (fullFileName : Str) (resp : HttpResponse)
    (h : doRequest (str "https://artifactregistry.googleapis.com/download/v1/" ++ fullFileName) =
      Except.ok resp) :
    (resp.statusCode ≠ 200 →
      downloaderDownload doRequest fullFileName =
        Except.error (str "unexpected download status code: " ++ natToStr resp.statusCode)) ∧
    (resp.statusCode = 200 →
      downloaderDownload doRequest fullFileName = Except.ok resp.body) := by
  constructor
  · intro hne
    simp [downloaderDownload, h, hne]
  · intro h200
    simp [downloaderDownload, h, h200]

/-- Witness for C8: a 404 response produces the failed-download error with
the code, a 200 response hands over the body. -/
theorem downloaderDownload_status_contract_witness :
    downloaderDownload c8Client (str "obj.zip") =
      Except.error (str "unexpected download status code: " ++ natToStr 404) ∧
    downloaderDownload c8Client (str "other.zip") = Except.ok (str "zip bytes") := by
  constructor
  · exact (downloaderDownload_status_contract c8Client (str "obj.zip")
      ⟨404, str "not found"⟩ (by decide)).1 (by decide)
  · exact (downloaderDownload_status_contract c8Client (str "other.zip")
      ⟨200, str "zip bytes"⟩ (by decide)).2 rfl

/-- C10: a checksum-manifest line with fewer than two whitespace-separated
fields — here the blank line in the middle of the input — makes the scanner
loop index a missing field, so the parse panics instead of returning. -/
theorem parseSHASumFile_short_line_panics :
    parseSHASumLines (scanLines (str "deadbeef  a.zip\n\ncafe  b.zip\n")) [] =
      Except.error (.panicked (str "runtime error: index out of range")) := by decide

/-- C6: with the downloaded armor bytes in hand, the key parser fails with
the malformed-key-ring error whenever the ring holds zero or more than one
entity, and on exactly one entity returns a SigningKey whose armor text is
byte-for-byte the downloaded input and whose key id is the entity's primary
key id string. -/
theorem parseGPGKeys_single_entity_contract
    (a : ArtifactRegistryGeneric) (ns fileName content : Str) (els : List Entity)
    (hdl : a.env.download
      (a.scope ++ str "/repositories/" ++ ns ++ str "/files/" ++ fileName ++ str ":download") =
      Except.ok content)
    (hring : a.env.readArmoredKeyRing content = Except.ok els) :
    (els.length ≠ 1 →
      parseGPGKeys a ns fileName =
        Except.error (.goError
          (str "GPG Key contains " ++ natToStr els.length ++ str " entities, wanted 1"))) ∧
    (∀ e : Entity, els = [e] →
      parseGPGKeys a ns fileName = Except.ok [⟨e.keyIdString, content, [], [], []⟩]) := by
  constructor
  · intro hne
    unfold parseGPGKeys
    rw [hdl]
    dsimp only
    rw [hring]
    match els, hne with
    | [], _ => rfl
    | e :: f :: rest, _ => rfl
    | [e], h => exact absurd rfl h
  · rintro e rfl
    unfold parseGPGKeys
    rw [hdl]
    dsimp only
    rw [hring]

/-- Witness for C6: one entity yields the verbatim armor with the key id,
two entities and zero entities fail with the entity-count error. -/
theorem parseGPGKeys_single_entity_contract_witness :
    parseGPGKeys c6Store (str "ns") (str "one.pem") =
      Except.ok [⟨str "ABCDEF0123456789", str "ONEKEY", [], [], []⟩] ∧
    parseGPGKeys c6Store (str "ns") (str "two.pem") =
      Except.error (.goError (str "GPG Key contains " ++ natToStr 2 ++ str " entities, wanted 1")) ∧
    parseGPGKeys c6Store (str "ns") (str "zero.pem") =
      Except.error (.goError (str "GPG Key contains " ++ natToStr 0 ++ str " entities, wanted 1")) := by
  refine ⟨?_, ?_, ?_⟩
  · exact (parseGPGKeys_single_entity_contract c6Store (str "ns") (str "one.pem")
      (str "ONEKEY") [⟨str "ABCDEF0123456789"⟩] (by decide) (by decide)).2
      ⟨str "ABCDEF0123456789"⟩ rfl
  · exact (parseGPGKeys_single_entity_contract c6Store (str "ns") (str "two.pem")
      (str "TWOKEYS") [⟨str "AAAA"⟩, ⟨str "BBBB"⟩] (by decide) (by decide)).1 (by decide)
  · exact (parseGPGKeys_single_entity_contract c6Store (str "ns") (str "zero.pem")
      (str "ZEROKEYS") [] (by decide) (by decide)).1 (by decide)

/-- C7 (amended): looking a listed file name up in the parsed manifest by
exact-or-suffix match returns that file's digest provided no other manifest
entry is also a suffix of the queried name; a query matching no entry fails
with the digest-not-found error; and the spec's concrete example parses and
resolves as stated. -/
theorem findSHA_lookup_contract :
    (∀ (sums : List (Str × Str)) (fn digest : Str),
      (fn, digest) ∈ sums →
      (∀ q ∈ sums, hasSuffix fn q.1 = true → q = (fn, digest)) →
      findSHA sums fn = Except.ok (digest, fn)) ∧
    (∀ (sums : List (Str × Str)) (fn : Str),
      (∀ q ∈ sums, hasSuffix fn q.1 = false) →
      findSHA sums fn =
        Except.error (.goError (str "failed to find SHA for \"" ++ fn ++ str "\""))) ∧
    parseSHASumLines (scanLines (str "deadbeef  terraform-provider-foo_1.0.0_linux_amd64.zip\n")) [] =
      Except.ok [(str "terraform-provider-foo_1.0.0_linux_amd64.zip", str "deadbeef")] ∧
    findSHA [(str "terraform-provider-foo_1.0.0_linux_amd64.zip", str "deadbeef")]
      (str "terraform-provider-foo_1.0.0_linux_amd64.zip") =
      Except.ok (str "deadbeef", str "terraform-provider-foo_1.0.0_linux_amd64.zip") ∧
    findSHA [(str "terraform-provider-foo_1.0.0_linux_amd64.zip", str "deadbeef")]
      (str "absent.zip") =
      Except.error (.goError (str "failed to find SHA for \"" ++ str "absent.zip" ++ str "\"")) := by
  refine ⟨?_, ?_, by decide, by decide, by decide⟩
  · intro sums fn digest hmem huniq
    unfold findSHA
    cases hfind : sums.find? (fun q => hasSuffix fn q.1) with
    | none =>
      exfalso
      have hc := List.find?_eq_none.mp hfind (fn, digest) hmem
      simp [hasSuffix] at hc
    | some q =>
      have hq : hasSuffix fn q.1 = true :=
        List.find?_some (p := fun (q : Str × Str) => hasSuffix fn q.1) hfind
      have hqmem : q ∈ sums :=
        List.mem_of_find?_eq_some (p := fun (q : Str × Str) => hasSuffix fn q.1) hfind
      rw [huniq q hqmem hq]
  · intro sums fn hnone
    unfold findSHA
    rw [List.find?_eq_none.mpr]
    intro q hq
    simp [hnone q hq]

/-- Witness for C7 at a one-entry manifest map. -/
theorem findSHA_lookup_contract_witness :
    findSHA [(str "a.zip", str "00ff")] (str "a.zip") = Except.ok (str "00ff", str "a.zip") ∧
    findSHA [(str "a.zip", str "00ff")] (str "b.tar") =
      Except.error (.goError (str "failed to find SHA for \"" ++ str "b.tar" ++ str "\"")) := by
  constructor
  · exact findSHA_lookup_contract.1 [(str "a.zip", str "00ff")] (str "a.zip") (str "00ff")
      (by decide) (by decide)
  · exact findSHA_lookup_contract.2.1 [(str "a.zip", str "00ff")] (str "b.tar") (by decide)

/-- C7 counterexample: in the manifest with entries amd64.zip and
provider_amd64.zip, querying the listed name provider_amd64.zip suffix-matches
the other entry first and returns digest 1111, not the queried file's own
digest 2222 — so lookup on a listed file name does not always return that
file's digest. -/
theorem findSHA_ambiguous_suffix_cex :
    parseSHASumLines (scanLines (str "1111  amd64.zip\n2222  provider_amd64.zip\n")) [] =
      Except.ok [(str "amd64.zip", str "1111"), (str "provider_amd64.zip", str "2222")] ∧
    findSHA [(str "amd64.zip", str "1111"), (str "provider_amd64.zip", str "2222")]
      (str "provider_amd64.zip") = Except.ok (str "1111", str "amd64.zip") ∧
    findSHA [(str "amd64.zip", str "1111"), (str "provider_amd64.zip", str "2222")]
      (str "provider_amd64.zip") ≠
      Except.ok (str "2222", str "provider_amd64.zip") := by
  refine ⟨by decide, by decide, by decide⟩

/-- The error accumulator of the `mapVersions` loop collects exactly the
decode errors of the input, in order, after whatever was already joined. -/
theorem mapVersionsGo_snd (l : List Str) :
    ∀ (m : List (Str × List Platform)) (acc : List Str),
      (mapVersionsGo l m acc).2 = acc ++ decodeErrs l := by
  induction l with
  | nil => intro m acc; simp [mapVersionsGo, decodeErrs]
  | cons v rest ih =>
    intro m acc
    cases hp : parseFullVersion v with
    | error e =>
      simp only [mapVersionsGo, hp, ih, decodeErrs, List.filterMap_cons]
      simp [List.append_assoc]
    | ok t =>
      obtain ⟨x, y, z⟩ := t
      simp only [mapVersionsGo, hp, ih, decodeErrs, List.filterMap_cons]

/-- The grouping part of the `mapVersions` loop does not depend on the error
accumulator. -/
theorem mapVersionsGo_fst_acc (l : List Str) :
    ∀ (m : List (Str × List Platform)) (a b : List Str),
      (mapVersionsGo l m a).1 = (mapVersionsGo l m b).1 := by
  induction l with
  | nil => intro m a b; rfl
  | cons v rest ih =>
    intro m a b
    cases hp : parseFullVersion v with
    | error e => simp only [mapVersionsGo, hp]; exact ih m _ _
    | ok t =>
      obtain ⟨x, y, z⟩ := t
      simp only [mapVersionsGo, hp]
      exact ih _ _ _

/-- Undecodable entries contribute nothing to the grouping: the version map
built from a list equals the one built from its decodable entries. -/
theorem mapVersionsGo_fst_filter (l : List Str) :
    ∀ (m : List (Str × List Platform)) (acc : List Str),
      (mapVersionsGo l m acc).1 = (mapVersionsGo (l.filter decodable) m acc).1 := by
  induction l with
  | nil => intro m acc; rfl
  | cons v rest ih =>
    intro m acc
    cases hp : parseFullVersion v with
    | error e =>
      have hd : decodable v = false := by simp [decodable, hp]
      simp only [mapVersionsGo, hp, List.filter_cons, hd, cond_false, Bool.false_eq_true,
        if_false]
      rw [mapVersionsGo_fst_acc rest m (acc ++ [e]) acc]
      exact ih m acc
    | ok t =>
      obtain ⟨x, y, z⟩ := t
      have hd : decodable v = true := by simp [decodable, hp]
      simp only [mapVersionsGo, hp, List.filter_cons, hd, cond_true, if_true]
      exact ih _ _

/-- C1 (amended): the internal grouping step `mapVersions` does return the
version set built from the decodable entries together with a non-nil
aggregate covering every undecodable entry — on the spec's example it yields
the single 1.0.0 entry with both platforms plus the error mentioning "bad" —
but `ListProviderVersions` only logs that aggregate and hands the caller the
version set with a nil error. -/
theorem mapVersions_aggregates_decode_errors :
    (∀ l : List Str,
      (∃ v ∈ l, decodable v = true) → (∃ v ∈ l, decodable v = false) →
      (mapVersions l).2 ≠ [] ∧
      (∀ v ∈ l, ∀ e, parseFullVersion v = Except.error e → e ∈ (mapVersions l).2) ∧
      (mapVersions l).1 = (mapVersions (l.filter decodable)).1) ∧
    (∀ (a : ArtifactRegistryGeneric) (ns name : Str) (vnames : List Str),
      a.env.listVersions
        (a.scope ++ str "/repositories/" ++ ns ++ str "/packages/" ++ name) =
        Except.ok vnames →
      listProviderVersions a ns name = Except.ok (mapVersions (vnames.map pathBase)).1) ∧
    mapVersions [str "1.0.0-linux-amd64", str "1.0.0-darwin-arm64", str "bad"] =
      (⟨[⟨str "1.0.0", [str "5.0"],
        [⟨str "linux", str "amd64"⟩, ⟨str "darwin", str "arm64"⟩]⟩]⟩,
       [str "invalid version format: " ++ str "bad"]) := by
  refine ⟨fun l hsome hbad => ?_, fun a ns name vnames h => ?_, by decide⟩
  · have hsnd : (mapVersions l).2 = decodeErrs l := by
      simp [mapVersions, mapVersionsGo_snd]
    have hmem : ∀ v ∈ l, ∀ e, parseFullVersion v = Except.error e →
        e ∈ (mapVersions l).2 := by
      intro v hv e hp
      rw [hsnd]
      exact List.mem_filterMap.mpr ⟨v, hv, by rw [hp]⟩
    refine ⟨?_, hmem, ?_⟩
    · obtain ⟨v, hv, hvf⟩ := hbad
      cases hp : parseFullVersion v with
      | error e => exact List.ne_nil_of_mem (hmem v hv e hp)
      | ok t => simp [decodable, hp] at hvf
    · simp only [mapVersions]
      rw [mapVersionsGo_fst_filter l [] []]
  · unfold listProviderVersions
    rw [h]

/-- Witness for C1's amended statement on the spec's example listing. -/
theorem mapVersions_aggregates_decode_errors_witness :
    (mapVersions [str "1.0.0-linux-amd64", str "1.0.0-darwin-arm64", str "bad"]).2 ≠ [] ∧
    listProviderVersions c1Store (str "ns") (str "pname") =
      Except.ok (mapVersions
        ([str "1.0.0-linux-amd64", str "1.0.0-darwin-arm64", str "bad"].map pathBase)).1 := by
  constructor
  · exact (mapVersions_aggregates_decode_errors.1
      [str "1.0.0-linux-amd64", str "1.0.0-darwin-arm64", str "bad"]
      (by decide) (by decide)).1
  · exact mapVersions_aggregates_decode_errors.2.1 c1Store (str "ns") (str "pname")
      [str "1.0.0-linux-amd64", str "1.0.0-darwin-arm64", str "bad"] (by decide)

/-- C1 counterexample: on the spec's example raw versions the Provider Store
ListVersions returns the grouped version set with a nil error — the call
succeeds outright (the decode aggregate for "bad" is only logged), so it does
not return a non-nil aggregated error as the claim states. -/
theorem listProviderVersions_returns_nil_error :
    listProviderVersions c1Store (str "ns") (str "pname") =
      Except.ok ⟨[⟨str "1.0.0", [str "5.0"],
        [⟨str "linux", str "amd64"⟩, ⟨str "darwin", str "arm64"⟩]⟩]⟩ := by decide

/-- The binary-archive asset name is never the empty string. -/
theorem zipAssetName_ne_nil (namePfx os arch : Str) : zipAssetName namePfx os arch ≠ [] := by
  intro h
  rcases List.append_eq_nil.mp h with ⟨-, h2⟩
  exact absurd h2 (by decide)

/-- A file whose base name is not the checksum-manifest asset name leaves the
manifest role variable unchanged. -/
theorem classifyStep_shaSum_preserve (namePfx os arch : Str) (st : FileRoles) (f : Str)
    (h : pathBase f ≠ shaSumsAssetName namePfx) :
    (classifyStep namePfx os arch st f).shaSumName = st.shaSumName := by
  simp only [classifyStep]
  split_ifs <;> rfl

/-- If no listed file has the checksum-manifest asset name, the
classification loop leaves the manifest role variable unchanged. -/
theorem classifyFiles_shaSum_preserve (namePfx os arch : Str) (files : List Str) :
    ∀ st : FileRoles, (∀ f ∈ files, pathBase f ≠ shaSumsAssetName namePfx) →
      (classifyFiles namePfx os arch files st).shaSumName = st.shaSumName := by
  induction files with
  | nil => intro st h; rfl
  | cons g rest ih =>
    intro st h
    simp only [classifyFiles]
    rw [ih _ (fun f hf => h f (List.mem_cons_of_mem g hf))]
    exact classifyStep_shaSum_preserve namePfx os arch st g (h g (List.mem_cons_self g rest))

/-- Once the binary role variable holds the binary asset name, every later
iteration keeps it there. -/
theorem classifyStep_bin_stable (namePfx os arch : Str) (st : FileRoles) (f : Str)
    (h : st.providerBinName = zipAssetName namePfx os arch) :
    (classifyStep namePfx os arch st f).providerBinName = zipAssetName namePfx os arch := by
  simp only [classifyStep]
  split_ifs with h1 h2 h3 h4 <;> first | exact h1 | exact h

/-- A file whose base name is the binary asset name sets the binary role
variable to it. -/
theorem classifyStep_bin_hit (namePfx os arch : Str) (st : FileRoles) (f : Str)
    (h : pathBase f = zipAssetName namePfx os arch) :
    (classifyStep namePfx os arch st f).providerBinName = zipAssetName namePfx os arch := by
  simp only [classifyStep]
  split_ifs
  exact h

/-- `classifyFiles` keeps the binary role variable at the binary asset name
once set. -/
theorem classifyFiles_bin_stable (namePfx os arch : Str) (files : List Str) :
    ∀ st : FileRoles, st.providerBinName = zipAssetName namePfx os arch →
      (classifyFiles namePfx os arch files st).providerBinName = zipAssetName namePfx os arch := by
  induction files with
  | nil => intro st h; exact h
  | cons g rest ih =>
    intro st h
    simp only [classifyFiles]
    exact ih _ (classifyStep_bin_stable namePfx os arch st g h)

/-- If some listed file has the binary asset name, the classification loop
ends with the binary role variable holding it. -/
theorem classifyFiles_bin_of_mem (namePfx os arch : Str) (files : List Str) :
    ∀ st : FileRoles, (∃ f ∈ files, pathBase f = zipAssetName namePfx os arch) →
      (classifyFiles namePfx os arch files st).providerBinName = zipAssetName namePfx os arch := by
  induction files with
  | nil => rintro st ⟨f, hf, -⟩; exact absurd hf (List.not_mem_nil f)
  | cons g rest ih =>
    rintro st ⟨f, hf, hbase⟩
    simp only [classifyFiles]
    rcases List.mem_cons.mp hf with rfl | hfr
    · exact classifyFiles_bin_stable namePfx os arch rest _
        (classifyStep_bin_hit namePfx os arch st f hbase)
    · exact ih _ ⟨f, hfr, hbase⟩

/-- C5: when the package's file listing has no checksum-manifest
(_SHA256SUMS) file, GetProviderVersion fails with the error naming the
checksum manifest, even with the binary archive and the signature file both
present in the listing. -/
theorem getProviderVersion_missing_shasums
    (a : ArtifactRegistryGeneric) (ns name version os arch : Str) (files : List Str)
    (hl : a.env.listFiles (a.scope ++ str "/repositories/" ++ ns)
      (str "owner=\"" ++ a.scope ++ str "/repositories/" ++ ns ++
        str "/packages/" ++ name ++ str "\"") = Except.ok files)
    (hbin : ∃ f ∈ files, pathBase f =
      zipAssetName (providerFileNamePfx name (fullVersion version os arch) version) os arch)
    (_hsig : ∃ f ∈ files, pathBase f =
      shaSumsSigAssetName (providerFileNamePfx name (fullVersion version os arch) version))
    (hsums : ∀ f ∈ files, pathBase f ≠
      shaSumsAssetName (providerFileNamePfx name (fullVersion version os arch) version)) :
    getProviderVersion a ns name version os arch =
      Except.error (.goError
        (str "SHA256SUMS not found for \"" ++ fullVersion version os arch ++ str "\"")) := by
  unfold getProviderVersion
  dsimp only
  rw [hl]
  dsimp only
  rw [classifyFiles_bin_of_mem _ os arch files _ hbin,
    classifyFiles_shaSum_preserve _ os arch files _ hsums]
  rw [if_neg (zipAssetName_ne_nil _ os arch), if_pos rfl]

/-- Witness for C5: a listing holding only the binary and the signature
makes GetProviderVersion fail with the manifest-naming error. -/
theorem getProviderVersion_missing_shasums_witness :
    getProviderVersion c5Store (str "ns") (str "foo") (str "1.0.0") (str "linux") (str "amd64") =
      Except.error (.goError (str "SHA256SUMS not found for \"" ++
        fullVersion (str "1.0.0") (str "linux") (str "amd64") ++ str "\"")) := by
  exact getProviderVersion_missing_shasums c5Store (str "ns") (str "foo") (str "1.0.0")
    (str "linux") (str "amd64")
    [str "foo:1.0.0-linux-amd64:terraform-provider-foo_1.0.0_linux_amd64.zip",
     str "foo:1.0.0-linux-amd64:terraform-provider-foo_1.0.0_SHA256SUMS.sig"]
    (by decide) (by decide) (by decide) (by decide)

/-- C2 is contradicted by the code: on a package whose listing has the
binary archive, the checksum manifest and the checksum signature but no
public-key file, GetProviderVersion still calls parseGPGKeys with the empty
key-file name, attempts to download the nonsensical path
".../files/:download", and fails — it does not succeed with an empty
signing-key list.  The second conjunct shows the manifest itself parsed
fine, the third shows the empty-named key fetch is what failed. -/
theorem getProviderVersion_missing_key_file_fails :
    getProviderVersion c2Store (str "ns") (str "foo") (str "1.0.0") (str "linux") (str "amd64") =
      Except.error (.goError (str "failed to parse GPG keys: " ++
        (str "failed to download " ++ [] ++ str ": " ++
          str "unexpected download status code: 404"))) ∧
    parseSHASumFile c2Store (str "ns")
      (str "foo:1.0.0-linux-amd64:terraform-provider-foo_1.0.0_SHA256SUMS") =
      Except.ok [(str "terraform-provider-foo_1.0.0_linux_amd64.zip", str "deadbeef")] ∧
    parseGPGKeys c2Store (str "ns") [] =
      Except.error (.goError (str "failed to download " ++ [] ++ str ": " ++
        str "unexpected download status code: 404")) := by
  refine ⟨by decide, by decide, by decide⟩
